import Mathlib

/-!
# Verification of the US tax chatbot core pipeline

Shallow embedding, in Lean 4, of the core data model and operations of the
`US_tax_chat_bot` repository (files `src/chat_functions.py`,
`src/retrieval_system.py`, `src/embeddings_generator.py`,
`src/text_splitter.py`, `src/vector_database.py`, `src/pdf_extractor.py`),
together with theorems settling the specification claims about them.

Python strings are modelled as Lean `String`/`List Char`; Python floats that
only flow through comparisons or `%.3f` formatting are modelled as exact
rationals or as integers in thousandths, as noted at each definition.
External services (the embedding service, the generation service, the PDF
page readers, the vector index) are modelled as explicit functional
parameters, so that "the service raised" is a constructor of the parameter's
result type rather than a hidden effect.
-/

namespace TaxBot

/-! ## Conversation session (`src/chat_functions.py`, class `ChatManager`)

`ChatManager` keeps `self.chat_history`, a list of `{"role": ..., "content": ...}`
dictionaries.  `send_message` appends the user turn and the assistant turn and
then trims the list to its last `max_history = 20` elements; `reset_chat`
replaces the list by `[]`.  A `send_message` call whose inner processing
raises (or whose component initialisation fails) returns an error string
without touching the history; `ChatOp.sendFail` models those paths. -/

inductive Role where
  | user
  | assistant
  deriving DecidableEq, Repr

structure Turn where
  role : Role
  content : String
  deriving DecidableEq, Repr

/-- `max_history = 20  # 10 user + 10 assistant messages` in `send_message`. -/
def maxHistory : Nat := 20

/-- One external interaction with a `ChatManager`: a successful
`send_message` (with the user message and the answer produced for it), a
`send_message` that failed before touching the history, or `reset_chat`. -/
inductive ChatOp where
  | sendOk (msg ans : String)
  | sendFail
  | reset

/-- Effect of one operation on `self.chat_history`, translated from
`ChatManager.send_message` (append the two turns, then
`self.chat_history = self.chat_history[-max_history:]` when the length
exceeds `max_history`) and `ChatManager.reset_chat`
(`self.chat_history = []`). -/
def chatStep (h : List Turn) : ChatOp → List Turn
  | .sendOk msg ans =>
      let h' := h ++ [⟨Role.user, msg⟩, ⟨Role.assistant, ans⟩]
      if h'.length > maxHistory then h'.drop (h'.length - maxHistory) else h'
  | .sendFail => h
  | .reset => []

/-- The history after a sequence of operations, starting from the empty
history of a fresh `ChatManager`. -/
def runChat (ops : List ChatOp) : List Turn :=
  ops.foldl chatStep []

/-- `ChatManager.get_chat_stats`, translated from the source: counts of all
messages, of the user messages and of the assistant messages, and
`conversation_turns = len(user_messages)`. -/
structure ChatStats where
  total_messages : Nat
  user_messages : Nat
  assistant_messages : Nat
  conversation_turns : Nat
  deriving DecidableEq, Repr

def getChatStats (h : List Turn) : ChatStats :=
  let users := h.filter (fun m => m.role = Role.user)
  let assistants := h.filter (fun m => m.role = Role.assistant)
  { total_messages := h.length
    user_messages := users.length
    assistant_messages := assistants.length
    conversation_turns := users.length }

/-- The history shape maintained by `send_message`/`reset_chat`: bounded by
`max_history`, of even length, and either empty or ending in a user turn
immediately followed by the assistant turn answering it. -/
def ChatInv (h : List Turn) : Prop :=
  h.length ≤ maxHistory ∧ h.length % 2 = 0 ∧
    (h = [] ∨ ∃ pre m a, h = pre ++ [⟨Role.user, m⟩, ⟨Role.assistant, a⟩])

theorem chatStep_inv {h : List Turn} (hh : ChatInv h) (op : ChatOp) :
    ChatInv (chatStep h op) := by
  obtain ⟨hlen, heven, hend⟩ := hh
  cases op with
  | sendFail => exact ⟨hlen, heven, hend⟩
  | reset =>
      show ChatInv []
      exact ⟨by simp [maxHistory], by simp, Or.inl rfl⟩
  | sendOk msg ans =>
      have hm : maxHistory = 20 := rfl
      rw [hm] at hlen
      simp only [chatStep, hm]
      have hL : (h ++ [(⟨Role.user, msg⟩ : Turn), ⟨Role.assistant, ans⟩]).length
          = h.length + 2 := by simp
      rw [hL]
      by_cases hc : h.length + 2 > 20
      · rw [if_pos hc]
        refine ⟨?_, ?_, Or.inr ⟨h.drop (h.length + 2 - 20), msg, ans, ?_⟩⟩
        · rw [List.length_drop, hL, hm]; omega
        · rw [List.length_drop, hL]; omega
        · exact List.drop_append_of_le_length (by omega)
      · rw [if_neg hc]
        refine ⟨?_, ?_, Or.inr ⟨h, msg, ans, rfl⟩⟩
        · rw [hL, hm]; omega
        · rw [hL]; omega

theorem foldl_chatStep_inv :
    ∀ (ops : List ChatOp) (h : List Turn), ChatInv h → ChatInv (ops.foldl chatStep h)
  | [], _, hh => hh
  | op :: ops, h, hh => foldl_chatStep_inv ops (chatStep h op) (chatStep_inv hh op)

theorem runChat_inv (ops : List ChatOp) : ChatInv (runChat ops) :=
  foldl_chatStep_inv ops []
    ⟨by simp [maxHistory], by simp, Or.inl rfl⟩

/-! ## Relevance filtering (`src/retrieval_system.py`, `retrieve_documents`)

`search_similar` (in `src/vector_database.py`) formats every hit as
`{'text': ..., 'metadata': ..., 'similarity_score': float(score)}`.
`retrieve_documents` then walks those results and keeps exactly the ones
with `similarity_score > 0.3`.  Scores are modelled as exact rationals;
`0.3` is the rational `3/10`. -/

structure RetDoc where
  text : String
  metadata : List (String × String)
  similarity_score : ℚ
  deriving DecidableEq

/-- The filtering loop of `retrieve_documents`, translated statement by
statement: start from an empty `filtered_results` and append each result
whose `similarity_score` exceeds the minimum relevance threshold `0.3`. -/
def filterLoop (results : List RetDoc) : List RetDoc :=
  results.foldl
    (fun filtered doc =>
      if doc.similarity_score > (3 : ℚ) / 10 then filtered ++ [doc] else filtered)
    []

/-- `RetrievalSystem.retrieve_documents`, given the list of results that the
store's similarity search returned for the query (the `search_similar` call
is the `results` parameter; the surrounding `try/except` returns `[]` only
when that call raises, which the parameter cannot). -/
def retrieveDocuments (results : List RetDoc) : List RetDoc :=
  filterLoop results

theorem filterLoop_eq_filter (results : List RetDoc) (acc : List RetDoc) :
    results.foldl
        (fun filtered doc =>
          if doc.similarity_score > (3 : ℚ) / 10 then filtered ++ [doc] else filtered)
        acc
      = acc ++ results.filter (fun doc => doc.similarity_score > (3 : ℚ) / 10) := by
  induction results generalizing acc with
  | nil => simp
  | cons d rest ih =>
      by_cases hd : d.similarity_score > (3 : ℚ) / 10
      · simp [List.foldl_cons, hd, ih, List.filter_cons]
      · simp [List.foldl_cons, hd, ih, List.filter_cons]

/-- Sending a message when the history already sits at the 20-turn cap drops
exactly the oldest user/assistant pair before appending the new pair. -/
theorem chatStep_at_cap {h : List Turn} (h20 : h.length = 20) (m a : String) :
    chatStep h (ChatOp.sendOk m a)
      = h.drop 2 ++ [⟨Role.user, m⟩, ⟨Role.assistant, a⟩] := by
  simp only [chatStep, maxHistory]
  have hL : (h ++ [(⟨Role.user, m⟩ : Turn), ⟨Role.assistant, a⟩]).length = 22 := by
    simp [h20]
  rw [hL, if_pos (by omega)]
  rw [show (22 : Nat) - 20 = 2 from rfl]
  exact List.drop_append_of_le_length (by omega)

/-- C2: starting from an empty history, after every sequence of
`send_message` calls (failed sends and `reset_chat` allowed in between) the
chat history is at most `20 = 2 * 10` turns long, its length is even, and it
is either empty or ends with a user turn immediately followed by the
matching assistant turn; moreover a send performed at the cap drops the
oldest pair from the front. -/
theorem send_message_history_cap (ops : List ChatOp) :
    (runChat ops).length ≤ 2 * 10 ∧
    (runChat ops).length % 2 = 0 ∧
    (runChat ops = [] ∨
      ∃ pre m a, runChat ops = pre ++ [⟨Role.user, m⟩, ⟨Role.assistant, a⟩]) ∧
    (∀ m a, (runChat ops).length = 2 * 10 →
      chatStep (runChat ops) (ChatOp.sendOk m a)
        = (runChat ops).drop 2 ++ [⟨Role.user, m⟩, ⟨Role.assistant, a⟩]) := by
  obtain ⟨hlen, heven, hend⟩ := runChat_inv ops
  exact ⟨hlen, heven, hend, fun m a h20 => chatStep_at_cap h20 m a⟩

theorem send_message_history_cap_witness :
    (runChat (List.replicate 10 (ChatOp.sendOk "q" "r"))).length ≤ 2 * 10 ∧
    chatStep (runChat (List.replicate 10 (ChatOp.sendOk "q" "r"))) (ChatOp.sendOk "m" "a")
      = (runChat (List.replicate 10 (ChatOp.sendOk "q" "r"))).drop 2
          ++ [⟨Role.user, "m"⟩, ⟨Role.assistant, "a"⟩] :=
  ⟨(send_message_history_cap (List.replicate 10 (ChatOp.sendOk "q" "r"))).1,
   (send_message_history_cap (List.replicate 10 (ChatOp.sendOk "q" "r"))).2.2.2
      "m" "a" (by decide)⟩

/-- C4: `retrieve_documents` returns exactly the search results whose
`similarity_score` exceeds the `0.3` minimum relevance threshold, keeping
their original rank order (the output is the threshold filter of the input,
hence a sublist of it), and every result scoring at or below `0.3` is
absent from the output. -/
theorem retrieve_documents_threshold (results : List RetDoc) :
    retrieveDocuments results
        = results.filter (fun doc => doc.similarity_score > (3 : ℚ) / 10) ∧
    (∀ doc, doc ∈ retrieveDocuments results ↔
        doc ∈ results ∧ doc.similarity_score > (3 : ℚ) / 10) ∧
    (retrieveDocuments results).Sublist results := by
  have heq : retrieveDocuments results
      = results.filter (fun doc => doc.similarity_score > (3 : ℚ) / 10) := by
    simpa using filterLoop_eq_filter results []
  refine ⟨heq, ?_, ?_⟩
  · intro doc
    rw [heq, List.mem_filter]
    simp
  · rw [heq]
    exact List.filter_sublist results

/-! ## Context assembly (`src/retrieval_system.py`, `create_context_from_documents`)

Each retrieved document is rendered as a source-attribution header followed
by its text; headers show the 1-based position, the `source_file` metadata
(default `'Unknown Document'`), the page and section when present, and the
similarity score formatted with `%.3f`.  Scores are modelled as exact
non-negative thousandths (`scoreMilli`), on which the `%.3f` rendering is
exact; the presence tests `page_number != 'Unknown Page'` and
`chunk_index != 'Unknown Section'` are modelled by `Option` fields, since
the Python defaults only mark absence.  The running total `current_length`
counts the lengths of the collected parts; the final string is
`"\n".join(context_parts)`, modelled by `pyJoin`. -/

structure CtxDoc where
  text : String
  source_file : Option String
  page_number : Option Nat
  chunk_index : Option Nat
  scoreMilli : Nat
  deriving DecidableEq

/-- The three digits after the decimal point of `%.3f`, zero-padded. -/
def pad3 (m : Nat) : String :=
  if m < 10 then "00" ++ toString m
  else if m < 100 then "0" ++ toString m
  else toString m

/-- `f"{doc_score:.3f}"` on a score given exactly in thousandths. -/
def formatScoreMilli (n : Nat) : String :=
  toString (n / 1000) ++ "." ++ pad3 (n % 1000)

/-- The `source_info` header built for document `i` (0-based, displayed
1-based), translated from the string concatenations in
`create_context_from_documents`. -/
def sourceInfo (i : Nat) (doc : CtxDoc) : String :=
  "[Document " ++ toString (i + 1) ++ ": " ++ doc.source_file.getD "Unknown Document"
    ++ (match doc.page_number with
        | some p => ", Page " ++ toString p
        | none => "")
    ++ (match doc.chunk_index with
        | some c => ", Section " ++ toString c
        | none => "")
    ++ " (Relevance: " ++ formatScoreMilli doc.scoreMilli ++ ")]"

/-- `formatted_doc = f"{source_info}\n{doc_text}\n"`. -/
def formattedDoc (i : Nat) (doc : CtxDoc) : String :=
  sourceInfo i doc ++ "\n" ++ doc.text ++ "\n"

/-- The document loop of `create_context_from_documents`: walk the
documents in rank order keeping a running `current_length`, and `break` at
the first document whose formatted form would push the running total past
`max_context_length`. -/
def ctxLoop (maxLen : Nat) : Nat → Nat → List CtxDoc → List String
  | _, _, [] => []
  | i, curLen, d :: rest =>
      let f := formattedDoc i d
      if curLen + f.length > maxLen then []
      else f :: ctxLoop maxLen (i + 1) (curLen + f.length) rest

/-- Python `sep.join(parts)`. -/
def pyJoin (sep : String) : List String → String
  | [] => ""
  | [p] => p
  | p :: q :: rest => p ++ sep ++ pyJoin sep (q :: rest)

/-- `RetrievalSystem.create_context_from_documents` (the default budget in
the source is `max_context_length = 15000`). -/
def createContextFromDocuments (docs : List CtxDoc) (maxLen : Nat) : String :=
  if docs.isEmpty then "" else pyJoin "\n" (ctxLoop maxLen 0 0 docs)

/-- All headers of the documents in rank order, the `i`-th rendered with
display index `i`; `ctxLoop` always returns a prefix of `formatAll 0 docs`. -/
def formatAll (i : Nat) : List CtxDoc → List String
  | [] => []
  | d :: rest => formattedDoc i d :: formatAll (i + 1) rest

theorem pyJoin_length (sep : String) :
    ∀ parts : List String,
      (pyJoin sep parts).length
        = (parts.map String.length).sum + sep.length * (parts.length - 1)
  | [] => by simp [pyJoin]
  | [p] => by simp [pyJoin]
  | p :: q :: rest => by
      have ih := pyJoin_length sep (q :: rest)
      simp only [pyJoin, String.length_append, ih, List.map_cons, List.sum_cons,
        List.length_cons, Nat.succ_sub_one, Nat.mul_succ]
      omega

theorem ctxLoop_sum_le (maxLen : Nat) :
    ∀ (docs : List CtxDoc) (i cur : Nat), cur ≤ maxLen →
      cur + ((ctxLoop maxLen i cur docs).map String.length).sum ≤ maxLen
  | [], _, _, hcur => by simpa [ctxLoop] using hcur
  | d :: rest, i, cur, hcur => by
      simp only [ctxLoop]
      by_cases hc : cur + (formattedDoc i d).length > maxLen
      · simpa [hc] using hcur
      · have ih := ctxLoop_sum_le maxLen rest (i + 1)
          (cur + (formattedDoc i d).length) (Nat.le_of_not_lt hc)
        simp only [hc, if_false, List.map_cons, List.sum_cons]
        omega

theorem ctxLoop_take (maxLen : Nat) :
    ∀ (docs : List CtxDoc) (i cur : Nat),
      ∃ n, n ≤ docs.length ∧
        ctxLoop maxLen i cur docs = (formatAll i docs).take n ∧
        ∀ hn : n < docs.length,
          cur + ((ctxLoop maxLen i cur docs).map String.length).sum
              + (formattedDoc (i + n) (docs.get ⟨n, hn⟩)).length > maxLen
  | [], i, cur => ⟨0, Nat.le_refl 0, by simp [ctxLoop, formatAll],
      fun hn => absurd hn (by simp)⟩
  | d :: rest, i, cur => by
      by_cases hc : cur + (formattedDoc i d).length > maxLen
      · refine ⟨0, Nat.zero_le _, by simp [ctxLoop, hc], ?_⟩
        intro hn
        simp [ctxLoop, hc]
      · obtain ⟨n, hnle, hpref, hstop⟩ :=
          ctxLoop_take maxLen rest (i + 1) (cur + (formattedDoc i d).length)
        refine ⟨n + 1, by simpa using Nat.succ_le_succ hnle, ?_, ?_⟩
        · simp [ctxLoop, hc, formatAll, hpref]
        · intro hn
          have hn' : n < rest.length := Nat.lt_of_succ_lt_succ hn
          have := hstop hn'
          simp only [ctxLoop, hc, if_false, List.map_cons, List.sum_cons,
            List.get_cons_succ]
          have harith : i + (n + 1) = i + 1 + n := by omega
          rw [harith]
          omega

/-- C1 counterexample: with budget `74` and two documents whose formatted
forms are each 37 characters long, both documents are appended (the running
total `74` does not exceed the budget), but the `"\n".join` separator makes
the returned context 75 characters long — one more than
`max_context_length`. -/
theorem create_context_budget_counterexample :
    (createContextFromDocuments
        [⟨"T", some "s", none, none, 0⟩, ⟨"T", some "s", none, none, 0⟩] 74).length = 75
      ∧ ¬ (createContextFromDocuments
        [⟨"T", some "s", none, none, 0⟩, ⟨"T", some "s", none, none, 0⟩] 74).length ≤ 74 := by
  constructor <;> decide

/-- C1 amended: the running character total of the appended parts (what the
source compares against the budget) never exceeds `max_context_length`, so
the returned context exceeds the budget by at most the `len(parts) - 1`
join-separator newlines; the appended parts are a prefix of the formatted
documents in rank order (so no document text is truncated), and when the
loop stops early the next document in rank order would have pushed the
running total past the budget. -/
theorem create_context_budget_amended (docs : List CtxDoc) (maxLen : Nat) :
    ((ctxLoop maxLen 0 0 docs).map String.length).sum ≤ maxLen ∧
    (createContextFromDocuments docs maxLen).length
        ≤ maxLen + (ctxLoop maxLen 0 0 docs).length - 1 ∧
    ∃ n, n ≤ docs.length ∧
      ctxLoop maxLen 0 0 docs = (formatAll 0 docs).take n ∧
      ∀ hn : n < docs.length,
        ((ctxLoop maxLen 0 0 docs).map String.length).sum
            + (formattedDoc n (docs.get ⟨n, hn⟩)).length > maxLen := by
  have hsum : ((ctxLoop maxLen 0 0 docs).map String.length).sum ≤ maxLen := by
    simpa using ctxLoop_sum_le maxLen docs 0 0 (Nat.zero_le maxLen)
  refine ⟨hsum, ?_, ?_⟩
  · by_cases hne : docs.isEmpty
    · simp [createContextFromDocuments, hne]
    · simp only [createContextFromDocuments, hne, Bool.false_eq_true, if_false]
      cases hp : ctxLoop maxLen 0 0 docs with
      | nil => simp [pyJoin]
      | cons p ps =>
          rw [hp] at hsum
          have hk : 1 ≤ (p :: ps).length := by simp
          rw [pyJoin_length, show ("\n" : String).length = 1 from rfl, one_mul]
          omega
  · obtain ⟨n, hnle, hpref, hstop⟩ := ctxLoop_take maxLen docs 0 0
    exact ⟨n, hnle, hpref, fun hn => by simpa using hstop hn⟩

theorem create_context_budget_amended_witness :
    ((ctxLoop 74 0 0
        [⟨"T", some "s", none, none, 0⟩, ⟨"T", some "s", none, none, 0⟩]).map
          String.length).sum ≤ 74 :=
  (create_context_budget_amended
    [⟨"T", some "s", none, none, 0⟩, ⟨"T", some "s", none, none, 0⟩] 74).1

/-! ## Embeddings generation (`src/embeddings_generator.py`, `generate_embeddings`)

The loop walks `range(0, len(texts), batch_size)`, slices the next batch,
and calls `self.embeddings.embed_documents(batch)` inside a `try`: on
success the returned vectors (one per batch text, the service contract) are
appended, on an exception the handler appends `[[] for _ in batch]` and
continues.  The external service is modelled by `vec` (the embedding each
text would receive) and `fails` (whether the call for a given `batch_num`
raises); vector components are exact rationals.  The pacing
`time.sleep(1)` between batches has no effect on the returned value and is
not modelled. -/

/-- The batch loop of `generate_embeddings`; `k` is `batch_num` (1-based in
the source).  For `bs ≥ 1` the slice `t :: ts.take (bs - 1)` is exactly
`texts[i:i + batch_size]`. -/
def genBatchLoop (bs : Nat) (fails : Nat → Bool) (vec : String → List ℚ) :
    Nat → List String → List (List ℚ)
  | _, [] => []
  | k, t :: ts =>
      (if fails k then (t :: ts.take (bs - 1)).map (fun _ => ([] : List ℚ))
       else (t :: ts.take (bs - 1)).map vec)
        ++ genBatchLoop bs fails vec (k + 1) (ts.drop (bs - 1))
  termination_by _ l => l.length
  decreasing_by simp [List.length_drop]; omega

/-- `EmbeddingsGenerator.generate_embeddings` (the source returns `[]`
straight away for an empty input, then batches from `batch_num = 1`). -/
def generateEmbeddings (fails : Nat → Bool) (vec : String → List ℚ)
    (texts : List String) (batch_size : Nat) : List (List ℚ) :=
  if texts.isEmpty then [] else genBatchLoop batch_size fails vec 1 texts

theorem genBatchLoop_length (bs : Nat) (fails : Nat → Bool) (vec : String → List ℚ) :
    ∀ (k : Nat) (l : List String), (genBatchLoop bs fails vec k l).length = l.length
  | _, [] => by simp [genBatchLoop]
  | k, t :: ts => by
      have ih := genBatchLoop_length bs fails vec (k + 1) (ts.drop (bs - 1))
      by_cases hf : fails k <;>
        simp [genBatchLoop, hf, ih, List.length_take, List.length_drop] <;> omega
  termination_by _ l => l.length
  decreasing_by simp [List.length_drop]; omega

theorem genBatchLoop_getElem (bs : Nat) (hbs : 0 < bs) (fails : Nat → Bool)
    (vec : String → List ℚ) :
    ∀ (k : Nat) (l : List String) (i : Nat), i < l.length →
      (genBatchLoop bs fails vec k l)[i]? =
        (l[i]?).map (fun t => if fails (k + i / bs) then [] else vec t)
  | _, [], _, hi => absurd hi (by simp)
  | k, t :: ts, i, hi => by
      have hi' : i < ts.length + 1 := by simpa using hi
      have hbatch : t :: ts.take (bs - 1) = (t :: ts).take bs := by
        cases bs with
        | zero => omega
        | succ n => simp [List.take_succ_cons]
      have hblen : (t :: ts.take (bs - 1)).length = min bs (ts.length + 1) := by
        simp [List.length_take]
        omega
      by_cases hlt : i < (t :: ts.take (bs - 1)).length
      · have hibs : i < bs := by
          have h1 := hblen ▸ hlt
          exact lt_of_lt_of_le h1 (Nat.min_le_left _ _)
        have hidiv : i / bs = 0 := Nat.div_eq_of_lt hibs
        have htake : ((t :: ts).take bs)[i]? = (t :: ts)[i]? :=
          List.getElem?_take_of_lt hibs
        have key :
            ∀ f : String → List ℚ,
              (((t :: ts.take (bs - 1)).map f) ++
                  genBatchLoop bs fails vec (k + 1) (ts.drop (bs - 1)))[i]?
                = ((t :: ts)[i]?).map f := by
          intro f
          rw [List.getElem?_append, if_pos (by simpa using hlt), List.getElem?_map,
            hbatch, htake]
        rw [genBatchLoop]
        by_cases hf : fails k
        · rw [if_pos hf, key]
          cases hopt : (t :: ts)[i]? <;> simp [hf, hidiv]
        · have hf' : fails k = false := by simpa using hf
          rw [if_neg hf, key]
          cases hopt : (t :: ts)[i]? <;> simp [hf', hidiv]
      · have hbs_le : bs ≤ ts.length + 1 := by
          by_contra hgt
          push_neg at hgt
          rw [Nat.min_eq_right (by omega)] at hblen
          omega
        have hlen : (t :: ts.take (bs - 1)).length = bs := by
          rw [hblen, Nat.min_eq_left hbs_le]
        have hige : bs ≤ i := by
          have h1 := Nat.le_of_not_lt hlt
          rw [hlen] at h1
          exact h1
        have hrec := genBatchLoop_getElem bs hbs fails vec (k + 1)
          (ts.drop (bs - 1)) (i - bs) (by rw [List.length_drop]; omega)
        have hdropElem : (ts.drop (bs - 1))[i - bs]? = ts[i - 1]? := by
          rw [List.getElem?_drop]
          congr 1
          omega
        have hconsElem : (ts : List String)[i - 1]? = (t :: ts)[i]? := by
          cases i with
          | zero => omega
          | succ j => simp
        have hdiv2 : i / bs = (i - bs) / bs + 1 := by
          conv_lhs => rw [show i = i - bs + bs from by omega]
          rw [Nat.add_div_right _ hbs]
        have key2 :
            ∀ f : String → List ℚ,
              (((t :: ts.take (bs - 1)).map f) ++
                  genBatchLoop bs fails vec (k + 1) (ts.drop (bs - 1)))[i]?
                = (genBatchLoop bs fails vec (k + 1) (ts.drop (bs - 1)))[i - bs]? := by
          intro f
          rw [List.getElem?_append, if_neg (by rw [List.length_map, hlen]; omega),
            List.length_map, hlen]
        have harith : k + 1 + (i - bs) / bs = k + i / bs := by omega
        rw [genBatchLoop]
        by_cases hf : fails k
        · rw [if_pos hf, key2, hrec, hdropElem, hconsElem, harith]
        · rw [if_neg hf, key2, hrec, hdropElem, hconsElem, harith]
  termination_by _ l _ => l.length
  decreasing_by simp [List.length_drop]; omega

/-- C3: for every input list and every positive batch size,
`generate_embeddings` returns exactly one vector per input text (it never
raises: the model is a total function, matching the `try/except` that
converts a failed external call into empty vectors), and the `i`-th output
is the service embedding of the `i`-th text when that text's batch
succeeded, or the empty vector when its batch raised. -/
theorem generate_embeddings_degraded (fails : Nat → Bool) (vec : String → List ℚ)
    (texts : List String) (bs : Nat) (hbs : 0 < bs) :
    (generateEmbeddings fails vec texts bs).length = texts.length ∧
    ∀ i, i < texts.length →
      (generateEmbeddings fails vec texts bs)[i]? =
        (texts[i]?).map (fun t => if fails (1 + i / bs) then [] else vec t) := by
  constructor
  · by_cases he : texts.isEmpty
    · have : texts = [] := List.isEmpty_iff.mp he
      simp [generateEmbeddings, this]
    · simp only [generateEmbeddings, he, Bool.false_eq_true, if_false]
      exact genBatchLoop_length bs fails vec 1 texts
  · intro i hi
    have hne : texts.isEmpty = false := by
      cases texts with
      | nil => simp at hi
      | cons a l => simp
    simp only [generateEmbeddings, hne, Bool.false_eq_true, if_false]
    exact genBatchLoop_getElem bs hbs fails vec 1 texts i hi

theorem generate_embeddings_degraded_witness :
    (generateEmbeddings (fun n => n == 2) (fun _ => [(1 : ℚ)]) ["a", "b", "c"] 2).length
        = 3 ∧
    (generateEmbeddings (fun n => n == 2) (fun _ => [(1 : ℚ)]) ["a", "b", "c"] 2)[2]?
        = some [] :=
  ⟨(generate_embeddings_degraded (fun n => n == 2) (fun _ => [(1 : ℚ)])
      ["a", "b", "c"] 2 (by decide)).1,
   by
    have h := (generate_embeddings_degraded (fun n => n == 2) (fun _ => [(1 : ℚ)])
      ["a", "b", "c"] 2 (by decide)).2 2 (by decide)
    simpa using h⟩

/-! ## Text splitting (`src/text_splitter.py`, class `TextSplitter`)

`TextSplitter.split_text` guards on empty/whitespace-only input, delegates
the actual splitting to a `RecursiveCharacterTextSplitter` configured with
`chunk_size`, `chunk_overlap`, `length_function=len` and the separator
hierarchy `["\n\n", "\n", " ", ""]`, and then wraps each produced chunk in
a metadata record whose `chunk_id` is
`f"{metadata.get('source_file', 'unknown')}_chunk_{i}"`.

The splitting engine itself lives in the external `langchain` library, not
in this repository, so it is modelled from the specification (see
`recursiveSplit`).  Texts are processed as `List Char` (`String.data`). -/

/-- The whitespace set of Python `str.split()` / `str.strip()`. -/
def isPySpace (c : Char) : Bool :=
  c == ' ' || c == '\t' || c == '\n' || c == '\r' || c == '\x0b' || c == '\x0c'

/-- Python `str.strip()`: drop leading and trailing whitespace. -/
def pyStrip (l : List Char) : List Char :=
  ((l.dropWhile isPySpace).reverse.dropWhile isPySpace).reverse

/-- Python `str.split()` with no argument: cut at every whitespace
character and drop the empty fragments, leaving the maximal
whitespace-free runs. -/
def pyWords (l : List Char) : List (List Char) :=
  (l.foldr
    (fun c ws =>
      if isPySpace c then [] :: ws
      else
        match ws with
        | [] => [[c]]
        | w :: rest => (c :: w) :: rest)
    []).filter (fun w => !w.isEmpty)

/-- Last-resort splitting on raw character boundaries: successive slices of
at most `cs` characters. -/
def charPieces (cs : Nat) : List Char → List (List Char)
  | [] => []
  | c :: rest => (c :: rest.take (cs - 1)) :: charPieces cs (rest.drop (cs - 1))
  termination_by l => l.length
  decreasing_by simp [List.length_drop]; omega

/-- Splitting worker, structurally recursive on a fuel bounded below by the
text length (a non-empty separator consumes at least one character per
step, so the fuel never runs out on the fuelled call in `splitOnSep`). -/
def splitOnSepGo (sep : List Char) : Nat → List Char → List (List Char)
  | _, [] => [[]]
  | 0, l => [l]
  | fuel + 1, c :: rest =>
      if sep ≠ [] && sep.isPrefixOf (c :: rest) then
        [] :: splitOnSepGo sep fuel ((c :: rest).drop sep.length)
      else
        match splitOnSepGo sep fuel rest with
        | [] => [[c]]
        | p :: ps => (c :: p) :: ps

/-- Split a text at every occurrence of the (non-empty) separator,
separators removed. -/
def splitOnSep (sep : List Char) (l : List Char) : List (List Char) :=
  splitOnSepGo sep l.length l

/-- Modelled from the spec: the recursive boundary-preferential pass of the
`RecursiveCharacterTextSplitter` (external `langchain` code, absent from
this repository).  A segment that fits in `chunk_size` is kept whole;
otherwise it is re-split on the next separator of the hierarchy, raw
character boundaries last. -/
def splitBySeps (cs : Nat) : List (List Char) → List Char → List (List Char)
  | [], t => charPieces cs t
  | sep :: rest, t =>
      (splitOnSep sep t).flatMap
        (fun p => if p.length ≤ cs then [p] else splitBySeps cs rest p)

/-- The last `ov` characters of a chunk, carried over as overlap. -/
def ovTail (ov : Nat) (l : List Char) : List Char :=
  l.drop (l.length - ov)

/-- Modelled from the spec: the greedy merge of the
`RecursiveCharacterTextSplitter` (external `langchain` code).  Small
adjacent splits are packed into one chunk while the running chunk stays
within `chunk_size`; when a chunk is emitted, the next chunk starts from
the last `chunk_overlap` characters of the previous one, and that carried
overlap is abandoned when even it would not leave room for the next
split. -/
def mergeLoop (cs ov : Nat) : List Char → List (List Char) → List (List Char)
  | acc, [] => [acc]
  | acc, p :: ps =>
      if acc.length + p.length ≤ cs then mergeLoop cs ov (acc ++ p) ps
      else
        acc ::
          (if (ovTail ov acc).length + p.length ≤ cs
           then mergeLoop cs ov (ovTail ov acc ++ p) ps
           else mergeLoop cs ov p ps)

def mergePieces (cs ov : Nat) : List (List Char) → List (List Char)
  | [] => []
  | p :: ps => mergeLoop cs ov p ps

/-- Modelled from the spec: `RecursiveCharacterTextSplitter.split_text`
with the source's separator hierarchy `["\n\n", "\n", " ", ""]` — split on
paragraph breaks, then line breaks, then spaces, then characters, and merge
adjacent small splits back up to `chunk_size` with `chunk_overlap` carried
across chunk boundaries. -/
def recursiveSplit (cs ov : Nat) (text : List Char) : List (List Char) :=
  mergePieces cs ov (splitBySeps cs [['\n', '\n'], ['\n'], [' ']] text)

/-- The metadata dictionary handed to `split_text` (the keys it reads). -/
structure DocMeta where
  source_file : Option String
  file_path : Option String
  extraction_method : Option String
  extraction_timestamp : Option String
  total_pages : Nat
  total_characters : Nat
  total_words : Nat
  deriving DecidableEq

/-- One element of the list returned by `split_text`, with the fields the
source stores for chunk `i`. -/
structure ChunkMeta where
  text : String
  chunk_id : String
  chunk_index : Nat
  source_file : String
  file_path : String
  total_chunks : Nat
  chunk_size : Nat
  chunk_word_count : Nat
  extraction_method : String
  extraction_timestamp : String
  total_pages : Nat
  total_characters : Nat
  total_words : Nat
  deriving DecidableEq

/-- The chunk-metadata record built for chunk `i` in the `enumerate(chunks)`
loop of `split_text`. -/
def mkChunk (md : DocMeta) (total : Nat) (i : Nat) (chunk : List Char) : ChunkMeta :=
  { text := String.mk chunk
    chunk_id := md.source_file.getD "unknown" ++ "_chunk_" ++ toString i
    chunk_index := i
    source_file := md.source_file.getD "unknown"
    file_path := md.file_path.getD ""
    total_chunks := total
    chunk_size := chunk.length
    chunk_word_count := (pyWords chunk).length
    extraction_method := md.extraction_method.getD "unknown"
    extraction_timestamp := md.extraction_timestamp.getD ""
    total_pages := md.total_pages
    total_characters := md.total_characters
    total_words := md.total_words }

/-- The `for i, chunk in enumerate(chunks)` loop of `split_text`. -/
def mkChunks (md : DocMeta) (total : Nat) : Nat → List (List Char) → List ChunkMeta
  | _, [] => []
  | i, c :: rest => mkChunk md total i c :: mkChunks md total (i + 1) rest

/-- `TextSplitter.split_text`: return `[]` on empty or whitespace-only
input, otherwise split and attach metadata (a total function — the source
raises nothing on this path). -/
def splitText (cs ov : Nat) (text : String) (md : DocMeta) : List ChunkMeta :=
  if text.data = [] ∨ pyStrip text.data = [] then []
  else
    mkChunks md (recursiveSplit cs ov text.data).length 0 (recursiveSplit cs ov text.data)

theorem charPieces_le (cs : Nat) (hcs : 1 ≤ cs) :
    ∀ (l : List Char), ∀ p ∈ charPieces cs l, p.length ≤ cs
  | [], p, hp => absurd hp (by simp [charPieces])
  | c :: rest, p, hp => by
      rw [charPieces] at hp
      rcases List.mem_cons.mp hp with h | h
      · subst h
        have := List.length_take_le (cs - 1) rest
        simp only [List.length_cons]
        omega
      · exact charPieces_le cs hcs (rest.drop (cs - 1)) p h
  termination_by l => l.length
  decreasing_by simp [List.length_drop]; omega

theorem splitBySeps_le (cs : Nat) (hcs : 1 ≤ cs) :
    ∀ (seps : List (List Char)) (t : List Char), ∀ p ∈ splitBySeps cs seps t,
      p.length ≤ cs
  | [], t, p, hp => charPieces_le cs hcs t p hp
  | sep :: rest, t, p, hp => by
      rw [splitBySeps] at hp
      obtain ⟨q, -, hq2⟩ := List.mem_flatMap.mp hp
      by_cases hqc : q.length ≤ cs
      · rw [if_pos hqc] at hq2
        rcases List.mem_singleton.mp hq2 with rfl
        exact hqc
      · rw [if_neg hqc] at hq2
        exact splitBySeps_le cs hcs rest q p hq2

theorem ovTail_le (ov : Nat) (l : List Char) (h : l.length ≤ cs) :
    (ovTail ov l).length ≤ cs := by
  rw [ovTail, List.length_drop]
  omega

theorem mergeLoop_le (cs ov : Nat) :
    ∀ (ps : List (List Char)) (acc : List Char), acc.length ≤ cs →
      (∀ p ∈ ps, p.length ≤ cs) → ∀ q ∈ mergeLoop cs ov acc ps, q.length ≤ cs
  | [], acc, hacc, _, q, hq => by
      rw [mergeLoop] at hq
      rcases List.mem_singleton.mp hq with rfl
      exact hacc
  | p :: ps, acc, hacc, hps, q, hq => by
      have hp : p.length ≤ cs := hps p (List.mem_cons_self p ps)
      have hps' : ∀ r ∈ ps, r.length ≤ cs := fun r hr => hps r (List.mem_cons_of_mem p hr)
      rw [mergeLoop] at hq
      by_cases h1 : acc.length + p.length ≤ cs
      · rw [if_pos h1] at hq
        exact mergeLoop_le cs ov ps (acc ++ p) (by simpa using h1) hps' q hq
      · rw [if_neg h1] at hq
        rcases List.mem_cons.mp hq with rfl | hq'
        · exact hacc
        · by_cases h2 : (ovTail ov acc).length + p.length ≤ cs
          · rw [if_pos h2] at hq'
            exact mergeLoop_le cs ov ps (ovTail ov acc ++ p) (by simpa using h2) hps' q hq'
          · rw [if_neg h2] at hq'
            exact mergeLoop_le cs ov ps p hp hps' q hq'

theorem recursiveSplit_le (cs ov : Nat) (hcs : 1 ≤ cs) (text : List Char) :
    ∀ p ∈ recursiveSplit cs ov text, p.length ≤ cs := by
  intro p hp
  rw [recursiveSplit] at hp
  cases hsp : splitBySeps cs [['\n', '\n'], ['\n'], [' ']] text with
  | nil => rw [hsp, mergePieces] at hp; exact absurd hp (by simp)
  | cons q qs =>
      rw [hsp, mergePieces] at hp
      have hall := splitBySeps_le cs hcs [['\n', '\n'], ['\n'], [' ']] text
      rw [hsp] at hall
      exact mergeLoop_le cs ov qs q
        (hall q (List.mem_cons_self q qs))
        (fun r hr => hall r (List.mem_cons_of_mem q hr)) p hp

theorem mkChunks_shape (md : DocMeta) (total : Nat) :
    ∀ (i : Nat) (l : List (List Char)), ∀ c ∈ mkChunks md total i l,
      ∃ p ∈ l, ∃ j, c = mkChunk md total j p
  | _, [], c, hc => absurd hc (by simp [mkChunks])
  | i, p :: rest, c, hc => by
      rw [mkChunks] at hc
      rcases List.mem_cons.mp hc with rfl | hc'
      · exact ⟨p, List.mem_cons_self p rest, i, rfl⟩
      · obtain ⟨q, hq, j, hj⟩ := mkChunks_shape md total (i + 1) rest c hc'
        exact ⟨q, List.mem_cons_of_mem p hq, j, hj⟩

/-- C9: `split_text` maps every empty or whitespace-only input to the empty
chunk list, for any metadata and configuration, without raising (the model
is a total function). -/
theorem split_text_empty_input (cs ov : Nat) (text : String) (md : DocMeta)
    (hws : ∀ c ∈ text.data, isPySpace c = true) :
    splitText cs ov text md = [] := by
  have hstrip : pyStrip text.data = [] := by
    have h1 : text.data.dropWhile isPySpace = [] :=
      List.dropWhile_eq_nil_iff.mpr hws
    rw [pyStrip, h1]
    simp
  rw [splitText, if_pos (Or.inr hstrip)]

theorem split_text_empty_input_witness :
    splitText 300 50 "  \n " ⟨none, none, none, none, 0, 0, 0⟩ = [] :=
  split_text_empty_input 300 50 "  \n " ⟨none, none, none, none, 0, 0, 0⟩ (by decide)

/-- C8: with any configuration satisfying `chunk_overlap < chunk_size`,
every chunk produced by `split_text` has `chunk_size` metadata
(`char_count`) at most the configured `chunk_size` — in this model even the
final residual chunk obeys the bound, which is stronger than the claimed
exception for the final chunk. -/
theorem split_text_chunk_budget (cs ov : Nat) (hov : ov < cs) (text : String)
    (md : DocMeta) :
    ∀ c ∈ splitText cs ov text md, c.chunk_size ≤ cs := by
  intro c hc
  rw [splitText] at hc
  by_cases hg : text.data = [] ∨ pyStrip text.data = []
  · rw [if_pos hg] at hc
    exact absurd hc (by simp)
  · rw [if_neg hg] at hc
    obtain ⟨p, hp, j, rfl⟩ :=
      mkChunks_shape md (recursiveSplit cs ov text.data).length 0
        (recursiveSplit cs ov text.data) c hc
    have : p.length ≤ cs := recursiveSplit_le cs ov (by omega) text.data p hp
    simpa [mkChunk] using this

theorem split_text_chunk_budget_witness :
    (50 : Nat) < 300 ∧
      ∀ c ∈ splitText 300 50 "hello world" ⟨none, none, none, none, 0, 0, 0⟩,
        c.chunk_size ≤ 300 :=
  ⟨by decide,
   split_text_chunk_budget 300 50 (by decide) "hello world"
     ⟨none, none, none, none, 0, 0, 0⟩⟩

/-! ## Vector store (`src/vector_database.py`, `add_chunks`)

`add_chunks` walks the chunk list, skips chunks whose text is blank,
collects `(text, metadata, chunk_id)` triples, and hands them to the
index's `add_texts(texts, metadatas, ids)` call with explicit ids.  The
index itself (Chroma) is external to the repository; per the spec its
`add` with explicit ids upserts by id.  A stored record keeps the document
text and the chunk's metadata; the flattening of metadata values to
strings is value-preserving on equal inputs and does not affect identity,
so it is not modelled further. -/

/-- Modelled from the spec: the vector store upserts by `chunk_id` —
re-adding an existing id overwrites that record in place, a new id is
appended. -/
def upsert (store : List (String × String × ChunkMeta)) (id : String)
    (v : String × ChunkMeta) : List (String × String × ChunkMeta) :=
  if store.any (fun e => e.1 = id) then
    store.map (fun e => if e.1 = id then (id, v) else e)
  else store ++ [(id, v)]

/-- `VectorDatabase.add_chunks` on the modelled store: skip blank chunks
(`if not text.strip(): continue`), then add the remaining triples by id. -/
def addChunks (store : List (String × String × ChunkMeta))
    (chunks : List ChunkMeta) : List (String × String × ChunkMeta) :=
  (chunks.filter (fun c => !(pyStrip c.text.data).isEmpty)).foldl
    (fun s c => upsert s c.chunk_id (c.text, c)) store

/-- The ids currently stored, in store order. -/
def storeIds (store : List (String × String × ChunkMeta)) : List String :=
  store.map (fun e => e.1)

theorem storeIds_upsert_of_mem {store : List (String × String × ChunkMeta)}
    {id : String} (h : id ∈ storeIds store) (v : String × ChunkMeta) :
    storeIds (upsert store id v) = storeIds store := by
  have hany : store.any (fun e => e.1 = id) = true := by
    obtain ⟨e, he, heq⟩ := List.mem_map.mp h
    exact List.any_eq_true.mpr ⟨e, he, by simp [heq]⟩
  rw [upsert, if_pos hany, storeIds, storeIds, List.map_map]
  apply List.map_congr_left
  intro e _
  by_cases he : e.1 = id <;> simp [he]

theorem storeIds_upsert_superset (store : List (String × String × ChunkMeta))
    (id : String) (v : String × ChunkMeta) :
    ∀ x ∈ storeIds store, x ∈ storeIds (upsert store id v) := by
  intro x hx
  by_cases hm : id ∈ storeIds store
  · rw [storeIds_upsert_of_mem hm v]; exact hx
  · have hany : store.any (fun e => e.1 = id) = false := by
      rw [List.any_eq_false]
      intro e he
      simp only [decide_eq_true_eq]
      intro heq
      exact hm (List.mem_map.mpr ⟨e, he, heq⟩)
    rw [upsert, if_neg (by rw [hany]; simp), storeIds, List.map_append]
    exact List.mem_append_left _ hx

theorem mem_storeIds_upsert (store : List (String × String × ChunkMeta))
    (id : String) (v : String × ChunkMeta) :
    id ∈ storeIds (upsert store id v) := by
  by_cases hany : store.any (fun e => e.1 = id) = true
  · obtain ⟨e, he, heq⟩ := List.any_eq_true.mp hany
    rw [upsert, if_pos hany, storeIds]
    refine List.mem_map.mpr ⟨(id, v), ?_, rfl⟩
    refine List.mem_map.mpr ⟨e, he, ?_⟩
    simp only [decide_eq_true_eq] at heq
    simp [heq]
  · rw [upsert, if_neg hany, storeIds, List.map_append]
    exact List.mem_append_right _ (by simp)

theorem storeIds_foldl_superset :
    ∀ (l : List ChunkMeta) (store : List (String × String × ChunkMeta)),
      ∀ x ∈ storeIds store,
        x ∈ storeIds (l.foldl (fun s c => upsert s c.chunk_id (c.text, c)) store)
  | [], _, _, hx => hx
  | c :: l, store, x, hx =>
      storeIds_foldl_superset l (upsert store c.chunk_id (c.text, c)) x
        (storeIds_upsert_superset store c.chunk_id (c.text, c) x hx)

theorem foldl_chunk_ids_mem :
    ∀ (l : List ChunkMeta) (store : List (String × String × ChunkMeta)),
      ∀ c ∈ l, c.chunk_id ∈
        storeIds (l.foldl (fun s c => upsert s c.chunk_id (c.text, c)) store)
  | [], _, c, hc => absurd hc (by simp)
  | d :: l, store, c, hc => by
      rcases List.mem_cons.mp hc with rfl | hc'
      · exact storeIds_foldl_superset l (upsert store c.chunk_id (c.text, c))
          c.chunk_id (mem_storeIds_upsert store c.chunk_id (c.text, c))
      · exact foldl_chunk_ids_mem l (upsert store d.chunk_id (d.text, d)) c hc'

theorem storeIds_foldl_of_all_mem :
    ∀ (l : List ChunkMeta) (store : List (String × String × ChunkMeta)),
      (∀ c ∈ l, c.chunk_id ∈ storeIds store) →
      storeIds (l.foldl (fun s c => upsert s c.chunk_id (c.text, c)) store)
        = storeIds store
  | [], _, _ => rfl
  | c :: l, store, hall => by
      have hc : c.chunk_id ∈ storeIds store := hall c (List.mem_cons_self c l)
      have hkeep : storeIds (upsert store c.chunk_id (c.text, c)) = storeIds store :=
        storeIds_upsert_of_mem hc (c.text, c)
      have hrest : ∀ d ∈ l, d.chunk_id ∈ storeIds (upsert store c.chunk_id (c.text, c)) := by
        intro d hd
        rw [hkeep]
        exact hall d (List.mem_cons_of_mem c hd)
      rw [List.foldl_cons,
        storeIds_foldl_of_all_mem l (upsert store c.chunk_id (c.text, c)) hrest, hkeep]

/-- Adding the same chunk list a second time changes no stored id: every id
of the second pass is already present after the first. -/
theorem addChunks_idempotent_ids (store : List (String × String × ChunkMeta))
    (chunks : List ChunkMeta) :
    storeIds (addChunks (addChunks store chunks) chunks)
      = storeIds (addChunks store chunks) := by
  rw [addChunks, addChunks]
  apply storeIds_foldl_of_all_mem
  intro c hc
  exact foldl_chunk_ids_mem _ store c hc

theorem mkChunks_length (md : DocMeta) (total : Nat) :
    ∀ (i : Nat) (l : List (List Char)), (mkChunks md total i l).length = l.length
  | _, [] => rfl
  | i, p :: rest => by
      rw [mkChunks, List.length_cons, List.length_cons,
        mkChunks_length md total (i + 1) rest]

theorem mkChunks_map_chunk_id (md : DocMeta) (total : Nat) :
    ∀ (i : Nat) (l : List (List Char)),
      (mkChunks md total i l).map (fun c => c.chunk_id)
        = (List.range' i l.length).map
            (fun j => md.source_file.getD "unknown" ++ "_chunk_" ++ toString j)
  | _, [] => rfl
  | i, p :: rest => by
      rw [mkChunks, List.map_cons, List.length_cons, List.range'_succ, List.map_cons,
        mkChunks_map_chunk_id md total (i + 1) rest]
      rfl

/-- C5: the `chunk_id` of the `i`-th chunk of a split document is exactly
the source file name (default `'unknown'`), `'_chunk_'`, and `i`; and
adding the chunks of a document to the store a second time leaves the
sequence of stored ids — and hence the store's item count — exactly as
after the first add (upsert by `chunk_id`, no duplicates). -/
theorem split_and_reingest_idempotent (cs ov : Nat) (text : String) (md : DocMeta)
    (store : List (String × String × ChunkMeta)) :
    (splitText cs ov text md).map (fun c => c.chunk_id)
        = (List.range (splitText cs ov text md).length).map
            (fun i => md.source_file.getD "unknown" ++ "_chunk_" ++ toString i) ∧
    storeIds (addChunks (addChunks store (splitText cs ov text md))
          (splitText cs ov text md))
        = storeIds (addChunks store (splitText cs ov text md)) ∧
    (addChunks (addChunks store (splitText cs ov text md))
          (splitText cs ov text md)).length
        = (addChunks store (splitText cs ov text md)).length := by
  refine ⟨?_, addChunks_idempotent_ids store (splitText cs ov text md), ?_⟩
  · rw [splitText]
    by_cases hg : text.data = [] ∨ pyStrip text.data = []
    · rw [if_pos hg]; rfl
    · rw [if_neg hg, mkChunks_length, List.range_eq_range', mkChunks_map_chunk_id]
  · have hids := addChunks_idempotent_ids store (splitText cs ov text md)
    have : ∀ s : List (String × String × ChunkMeta), (storeIds s).length = s.length := by
      intro s
      rw [storeIds, List.length_map]
    rw [← this, ← this, hids]

/-! ## Answer generation (`src/retrieval_system.py`, `generate_answer`)

`generate_answer` decides context sufficiency
(`bool(context and len(context.strip()) > 100)`), builds the message list
(fixed system prompt, the prior chat turns, one final user message in the
with-context or without-context shape), and calls `self.llm.invoke`
inside a `try` whose `except` returns a fixed apology string.  The
generation service is the `svc` parameter, returning either the response
content or the raised exception.  The source's triple-quoted prompt
literals are transcribed below line by line (the system prompt keeps the
12-space indentation its continuation lines have inside the method). -/

structure ChatMsg where
  role : String
  content : String
  deriving DecidableEq

def systemPrompt : String :=
  String.intercalate "\n"
    ["You are an expert US Tax Assistant with deep knowledge of tax regulations, IRS publications, and tax law. You provide comprehensive, accurate, and well-structured answers to tax-related questions.",
     "",
     "            Your response style should be:",
     "            1. DETAILED and EXPLANATORY - Provide thorough explanations, not just brief answers",
     "            2. STRUCTURED - Use clear headings, bullet points, and organized sections",
     "            3. AUTHORITATIVE - Cite specific sources, publications, or sections when referencing documents",
     "            4. PRACTICAL - Include relevant examples, scenarios, and actionable advice",
     "            5. COMPREHENSIVE - Cover all relevant aspects of the question",
     "",
     "            When you have access to relevant documents:",
     "            - Use both the provided context AND your extensive tax knowledge",
     "            - Always mention when information comes from specific documents/publications",
     "            - Provide detailed explanations even when context is available",
     "            - Structure your response with clear sections and subsections",
     "",
     "            When context is limited or insufficient:",
     "            - Rely on your comprehensive tax knowledge",
     "            - Provide detailed explanations based on general tax principles",
     "            - Clearly indicate when you\x27re using general knowledge vs. specific documents",
     "            - Still provide structured, comprehensive answers",
     "",
     "            Always be professional, accurate, and helpful. If asked about non-tax topics, politely redirect to tax-related questions."]

/-- The final user message when context is judged sufficient
(`f"""CONTEXT FROM TAX DOCUMENTS: ..."""`). -/
def contextMessageWithCtx (context query : String) : String :=
  String.intercalate "\n"
    ["CONTEXT FROM TAX DOCUMENTS:",
     context,
     "",
     "USER QUESTION: " ++ query,
     "",
     "INSTRUCTIONS:",
     "- FIRST, evaluate whether the provided context contains useful and relevant information to answer the user\x27s question",
     "- If the context is relevant and contains useful information:",
     "  - Provide a DETAILED, STRUCTURED, and COMPREHENSIVE answer",
     "  - Use BOTH the provided context AND your extensive tax knowledge to enhance and improve the answer",
     "  - When referencing information from the documents, mention the specific source (e.g., \"According to [Publication Name]\" or \"As stated in [Document Title]\")",
     "  - Structure your response with clear headings and organized sections",
     "  - Include relevant examples and practical guidance",
     "  - Enhance the provided context with your additional tax expertise and knowledge",
     "  - Start your response with: \"**Source: context + reasoning**\"",
     "- If the context does NOT contain relevant or useful information for answering the question:",
     "  - Provide a DETAILED, STRUCTURED, and COMPREHENSIVE answer using only your extensive tax knowledge",
     "  - Structure your response with clear headings and organized sections",
     "  - Include relevant examples, scenarios, and practical guidance",
     "  - Start your response with: \"**Source: reasoning**\"",
     "  - Do NOT mention that the context lacks information - just provide the answer directly",
     "",
     "RESPONSE FORMAT:",
     "Choose the appropriate source attribution based on context relevance:",
     "- \"**Source: context + reasoning**\" (if context is useful)",
     "- \"**Source: reasoning**\" (if context is not useful)",
     "Then provide your comprehensive answer."]

/-- The final user message when context is judged insufficient. -/
def contextMessageNoCtx (query : String) : String :=
  String.intercalate "\n"
    ["USER QUESTION: " ++ query,
     "",
     "INSTRUCTIONS:",
     "- Provide a DETAILED, STRUCTURED, and COMPREHENSIVE answer using your extensive tax knowledge",
     "- Structure your response with clear headings and organized sections",
     "- Include relevant examples, scenarios, and practical guidance",
     "- Be thorough and explanatory in your response",
     "- Do NOT mention that the knowledge base lacks context - just provide the answer directly",
     "",
     "RESPONSE FORMAT:",
     "Start your response with: \"**Source: reasoning**\"",
     "Then provide your comprehensive answer."]

/-- `has_context = bool(context and len(context.strip()) > 100)`. -/
def hasSufficientContext (context : String) : Bool :=
  !context.data.isEmpty && decide ((pyStrip context.data).length > 100)

/-- The `messages` list handed to `self.llm.invoke`: system prompt, then
the prior chat history in order, then the final user message. -/
def buildMessages (query context : String) (chat_history : List ChatMsg) :
    List ChatMsg :=
  ⟨"system", systemPrompt⟩ :: chat_history ++
    [⟨"user",
      if hasSufficientContext context then contextMessageWithCtx context query
      else contextMessageNoCtx query⟩]

/-- The fixed apology returned by the `except` handler of
`generate_answer`. -/
def fallbackAnswer : String :=
  "I apologize, but I encountered an error while generating a response. Please try again."

/-- `RetrievalSystem.generate_answer`: one service invocation, whose raised
exception — whatever it is — is converted to `fallbackAnswer`. -/
def generateAnswer (svc : List ChatMsg → Except String String)
    (query context : String) (chat_history : List ChatMsg) : String :=
  match svc (buildMessages query context chat_history) with
  | .ok answer => answer
  | .error _ => fallbackAnswer

/-- C6: whenever the generation service raises, `generate_answer` returns
the fixed apologetic fallback string — the same string for every query,
context, history and raised exception — and propagates nothing (the model
is a total function into `String`). -/
theorem generate_answer_fallback (svc : List ChatMsg → Except String String)
    (query context : String) (chat_history : List ChatMsg) (e : String)
    (hfail : svc (buildMessages query context chat_history) = Except.error e) :
    generateAnswer svc query context chat_history = fallbackAnswer := by
  rw [generateAnswer, hfail]

theorem generate_answer_fallback_witness :
    generateAnswer (fun _ => Except.error "boom") "q" "" [] = fallbackAnswer :=
  generate_answer_fallback (fun _ => Except.error "boom") "q" "" [] "boom" rfl

/-! ## PDF text extraction (`src/pdf_extractor.py`, `extract_text_from_pdf`)

`extract_text_from_pdf` checks that the file exists and carries a `.pdf`
extension, then tries `_extract_with_pdfplumber` and `_extract_with_pypdf2`
in that order inside a `try`: a method that raises is skipped, a method
whose `result.get('text', '').strip()` is blank is also skipped, and the
first method with non-blank text wins; when no method produces non-blank
text the function raises `Exception("All extraction methods failed ...")`.
Each backend is modelled by the outcome of its library calls: opening the
file either raises (`Except.error ()`) or yields the pages, and each
page's `extract_text()` either raises or returns its text (Python `None`
is modelled as the empty string — both are falsy in the `if page_text:`
test). -/

inductive PdfError where
  | fileNotFound
  | notPdf
  | allMethodsFailed
  deriving DecidableEq, Repr

structure ExtractionResult where
  text : String
  extraction_method : String
  total_pages : Nat
  deriving DecidableEq, Repr

/-- `line.isdigit()`: non-empty and all digits. -/
def pyIsDigit (l : List Char) : Bool :=
  !l.isEmpty && l.all (fun c => c.isDigit)

/-- `PDFExtractor._clean_text`: collapse whitespace runs to single spaces,
drop NUL and BOM characters, then drop stripped lines that are bare page
numbers (all digits, at most 3 of them) or shorter than 3 characters. -/
def cleanText (t : List Char) : List Char :=
  if t.isEmpty then []
  else
    let t1 := List.intercalate [' '] (pyWords t)
    let t2 := t1.filter (fun c => !(c == '\x00') && !(c == '﻿'))
    let stripped := (splitOnSep ['\n'] t2).map (fun line => pyStrip line)
    List.intercalate ['\n']
      (stripped.filter
        (fun line =>
          !(pyIsDigit line && decide (line.length ≤ 3)) && !(decide (line.length < 3))))

/-- The per-page loop shared by both backends: a page whose extraction
raises is logged and skipped, a page whose text is falsy is skipped, and
any other page contributes its cleaned text. -/
def pageTexts (pages : List (Except Unit String)) : List (List Char) :=
  pages.filterMap
    (fun pg =>
      match pg with
      | Except.error _ => none
      | Except.ok t => if t.data.isEmpty then none else some (cleanText t.data))

/-- `_extract_with_pdfplumber` / `_extract_with_pypdf2` given the outcome
of the library calls: the joined cleaned page texts and the page count
(`total_pages = len(page_metadata)`). -/
def runBackend (methodName : String) (b : Except Unit (List (Except Unit String))) :
    Except Unit ExtractionResult :=
  match b with
  | Except.error _ => Except.error ()
  | Except.ok pages =>
      Except.ok
        { text := String.mk (List.intercalate ['\n', '\n'] (pageTexts pages))
          extraction_method := methodName
          total_pages := (pageTexts pages).length }

/-- The `for method in extraction_methods` loop with its `try/except`:
return the first result with non-blank text, raise when none remains. -/
def tryMethods : List (Except Unit ExtractionResult) → Except PdfError ExtractionResult
  | [] => Except.error PdfError.allMethodsFailed
  | Except.error _ :: rest => tryMethods rest
  | Except.ok r :: rest =>
      if (pyStrip r.text.data).isEmpty then tryMethods rest else Except.ok r

/-- `PDFExtractor.extract_text_from_pdf`. -/
def extractTextFromPdf (fileExists isPdfExtension : Bool)
    (plumber pypdf : Except Unit (List (Except Unit String))) :
    Except PdfError ExtractionResult :=
  if !fileExists then Except.error PdfError.fileNotFound
  else if !isPdfExtension then Except.error PdfError.notPdf
  else tryMethods [runBackend "pdfplumber" plumber, runBackend "pypdf2" pypdf]

theorem tryMethods_two_failed (A B : Except Unit ExtractionResult) :
    tryMethods [A, B] = Except.error PdfError.allMethodsFailed ↔
      (∀ r, A = Except.ok r → pyStrip r.text.data = []) ∧
      (∀ r, B = Except.ok r → pyStrip r.text.data = []) := by
  rcases A with eA | rA <;> rcases B with eB | rB
  · simp [tryMethods]
  · by_cases hb : (pyStrip rB.text.data).isEmpty <;>
      simp_all [tryMethods, List.isEmpty_iff]
  · by_cases ha : (pyStrip rA.text.data).isEmpty <;>
      simp_all [tryMethods, List.isEmpty_iff]
  · by_cases ha : (pyStrip rA.text.data).isEmpty <;>
      by_cases hb : (pyStrip rB.text.data).isEmpty <;>
      simp_all [tryMethods, List.isEmpty_iff]

/-- C7 counterexample: on an existing `.pdf` file where both backends
*succeed* but find no text (for instance a PDF with zero extractable
pages), neither backend fails, yet `extract_text_from_pdf` still raises
`All extraction methods failed` — so the function does not raise *only*
when every backend fails. -/
theorem extract_text_counterexample :
    extractTextFromPdf true true (Except.ok []) (Except.ok [])
        = Except.error PdfError.allMethodsFailed ∧
    runBackend "pdfplumber" (Except.ok []) = Except.ok ⟨"", "pdfplumber", 0⟩ ∧
    runBackend "pypdf2" (Except.ok []) = Except.ok ⟨"", "pypdf2", 0⟩ :=
  ⟨rfl, rfl, rfl⟩

/-- C7 amended: for an existing `.pdf` file, `extract_text_from_pdf` raises
exactly when every backend either raises or extracts only blank text;
backends are tried with `pdfplumber` first (a non-blank `pdfplumber`
result is returned as is, `PyPDF2` untried), a backend failure is
non-fatal, and within a backend a page whose extraction raises is skipped
without failing the backend or affecting the other pages. -/
theorem extract_text_amended (plumber pypdf : Except Unit (List (Except Unit String))) :
    (extractTextFromPdf true true plumber pypdf
          = Except.error PdfError.allMethodsFailed ↔
        (∀ r, runBackend "pdfplumber" plumber = Except.ok r →
            pyStrip r.text.data = []) ∧
        (∀ r, runBackend "pypdf2" pypdf = Except.ok r →
            pyStrip r.text.data = [])) ∧
    (∀ r, runBackend "pdfplumber" plumber = Except.ok r →
        pyStrip r.text.data ≠ [] →
        extractTextFromPdf true true plumber pypdf = Except.ok r) ∧
    (∀ (name : String) (pre suf : List (Except Unit String)),
        runBackend name (Except.ok (pre ++ Except.error () :: suf))
          = runBackend name (Except.ok (pre ++ suf))) := by
  refine ⟨?_, ?_, ?_⟩
  · simpa [extractTextFromPdf] using
      tryMethods_two_failed (runBackend "pdfplumber" plumber)
        (runBackend "pypdf2" pypdf)
  · intro r hr hne
    have hni : (pyStrip r.text.data).isEmpty = false := by
      simpa [List.isEmpty_iff] using hne
    simp [extractTextFromPdf, hr, tryMethods, hni]
  · intro name pre suf
    have hpt : pageTexts (pre ++ Except.error () :: suf) = pageTexts (pre ++ suf) := by
      simp [pageTexts, List.filterMap_append, List.filterMap_cons]
    simp [runBackend, hpt]

theorem extract_text_amended_witness :
    extractTextFromPdf true true
        (Except.ok [Except.ok "Deductions reduce taxable income."]) (Except.error ())
      = Except.ok
          { text := "Deductions reduce taxable income."
            extraction_method := "pdfplumber"
            total_pages := 1 } :=
  (extract_text_amended (Except.ok [Except.ok "Deductions reduce taxable income."])
      (Except.error ())).2.1
    { text := "Deductions reduce taxable income."
      extraction_method := "pdfplumber"
      total_pages := 1 }
    (by rfl) (by decide)

/-! ## `get_chat_history` returns a copy (`src/chat_functions.py`)

`get_chat_history` ends in `return self.chat_history.copy()`: the caller
receives a *fresh* list object holding the same turns, so mutating it
cannot touch `self.chat_history`.  Python object identity is modelled by a
small heap of list objects (`List (List Turn)`, a reference being an index
into it): `.copy()` allocates a new cell with the same contents, mutation
writes a cell in place, and the manager holds a fixed reference to its
history cell.  Had the source returned `self.chat_history` itself, the
model would return `mgr.histRef` and the theorem below would fail. -/

/-- Read the list object a reference points to. -/
def readRef (σ : List (List Turn)) (r : Nat) : List Turn :=
  (σ[r]?).getD []

/-- Mutate in place the list object a reference points to. -/
def writeRef (σ : List (List Turn)) (r : Nat) (v : List Turn) : List (List Turn) :=
  σ.set r v

/-- Allocate a fresh list object, returning the new heap and its reference. -/
def allocRef (σ : List (List Turn)) (v : List Turn) : List (List Turn) × Nat :=
  (σ ++ [v], σ.length)

/-- The mutable state of a `ChatManager`: the reference to the list object
bound to `self.chat_history`. -/
structure ChatManagerState where
  histRef : Nat
  deriving DecidableEq

/-- `ChatManager.get_chat_history`: allocate a copy of the current history
(`self.chat_history.copy()`) and return a reference to the copy. -/
def getChatHistory (σ : List (List Turn)) (mgr : ChatManagerState) :
    List (List Turn) × Nat :=
  allocRef σ (readRef σ mgr.histRef)

/-- C10: for every valid manager state, `get_chat_history` returns a fresh
list with the same contents; writing *any* value through the returned
reference leaves the stored chat history unchanged, so a later
`get_chat_stats` (and anything else reading the stored history, such as
`send_message` or another `get_chat_history`) behaves as if the returned
list had never been modified. -/
theorem get_chat_history_returns_copy (σ : List (List Turn))
    (mgr : ChatManagerState) (hvalid : mgr.histRef < σ.length) :
    (getChatHistory σ mgr).2 ≠ mgr.histRef ∧
    readRef (getChatHistory σ mgr).1 (getChatHistory σ mgr).2
        = readRef σ mgr.histRef ∧
    (∀ v : List Turn,
      readRef (writeRef (getChatHistory σ mgr).1 (getChatHistory σ mgr).2 v)
          mgr.histRef
        = readRef σ mgr.histRef) ∧
    (∀ v : List Turn,
      getChatStats
          (readRef (writeRef (getChatHistory σ mgr).1 (getChatHistory σ mgr).2 v)
            mgr.histRef)
        = getChatStats (readRef σ mgr.histRef)) := by
  have hfresh : (getChatHistory σ mgr).2 = σ.length := rfl
  have hkeep : ∀ v : List Turn,
      readRef (writeRef (getChatHistory σ mgr).1 (getChatHistory σ mgr).2 v)
          mgr.histRef
        = readRef σ mgr.histRef := by
    intro v
    show (((σ ++ [readRef σ mgr.histRef]).set σ.length v)[mgr.histRef]?).getD []
        = (σ[mgr.histRef]?).getD []
    rw [List.getElem?_set_ne (by omega), List.getElem?_append, if_pos hvalid]
  refine ⟨by rw [hfresh]; omega, ?_, hkeep, fun v => by rw [hkeep v]⟩
  show ((σ ++ [readRef σ mgr.histRef])[σ.length]?).getD []
      = readRef σ mgr.histRef
  rw [List.getElem?_append, if_neg (by omega)]
  simp

theorem get_chat_history_returns_copy_witness :
    readRef
        (writeRef (getChatHistory [[⟨Role.user, "q"⟩]] ⟨0⟩).1
          (getChatHistory [[⟨Role.user, "q"⟩]] ⟨0⟩).2 [])
        0
      = readRef [[⟨Role.user, "q"⟩]] 0 :=
  (get_chat_history_returns_copy [[⟨Role.user, "q"⟩]] ⟨0⟩ (by decide)).2.2.1 []

end TaxBot
